import Mathlib

/-!
Verification of the manual CDC (change-data-capture) replication engine:
a shallow embedding of its bulk loader, wal2json change decoder, apply
engine and poll-tick loop, together with theorems about the testable
properties of the design.

The target store is the `person` table
(`id integer primary key, name varchar not null, uid uuid not null,
 score integer not null, created_at timestamp default current_timestamp`),
modelled as a list of rows keyed by `id`.  SQL parameter values are
modelled by the `Value` type; a parameter whose Go value cannot be bound
to the column's SQL type, or that violates a NOT NULL constraint of a row
actually written, makes the statement fail (modelled as `none`).  UUID and
timestamp text validity is not modelled; all concrete inputs used below
are well-formed literals.  JSON numbers are modelled as integers, the only
numeric shape wal2json emits for this schema.
-/

namespace CDC

/-- A dynamically-typed SQL parameter value, as produced by decoding a
wal2json `value` field into a Go `any` and handing it to the driver.
`vcomposite` stands for a JSON array or object (a Go slice or map), which
the driver cannot bind to any scalar column. -/
inductive Value where
  | vint (n : Int)
  | vstr (s : String)
  | vbool (b : Bool)
  | vnull
  | vcomposite
  deriving DecidableEq, Repr

/-- One row of the `person` table.  `created_at` is the one nullable
column (it has a default but no NOT NULL constraint), stored as
`none` for SQL NULL. -/
structure Row where
  id : Int
  name : String
  uid : String
  score : Int
  created_at : Option String
  deriving DecidableEq, Repr

/-- The target store: the `person` rows plus the current restart value of
the `person_id_seq` primary-key sequence. -/
structure Target where
  rows : List Row
  seq : Int
  deriving DecidableEq, Repr

/-- One column entry of a wal2json v2 change record. -/
structure WAL2JSONColumn where
  name : String
  type : String
  value : Value
  deriving DecidableEq, Repr

/-- A decoded wal2json v2 change record (the Go `WAL2JSONChange` struct). -/
structure WAL2JSONChange where
  action : String
  timestamp : String
  schema : String
  table : String
  columns : List WAL2JSONColumn
  identity : List WAL2JSONColumn
  deriving DecidableEq, Repr

/-- Build the Go `values` map and look up one key: the map is filled by
iterating over the column list, so a later column with the same name
overwrites an earlier one; a missing key reads as Go `nil`, which the
driver binds as SQL NULL. -/
def colValue (cols : List WAL2JSONColumn) (k : String) : Value :=
  match cols.reverse.find? (fun c => c.name = k) with
  | some c => c.value
  | none => Value.vnull

/-- The CDC insert statement: `INSERT INTO person (id, name, uid, score,
created_at) VALUES ($1..$5) ON CONFLICT (id) DO UPDATE SET name =
EXCLUDED.name, uid = EXCLUDED.uid, score = EXCLUDED.score`.  Note the
conflict branch does not touch `created_at`.  A NULL or unbindable value
for `id`, `name`, `uid` or `score` fails either as a bind error or as a
NOT NULL violation on whichever branch runs, since both branches write
those columns; `created_at` may be NULL but not a number/bool/composite. -/
def execInsert (rows : List Row) (vid vname vuid vscore vcreated : Value) :
    Option (List Row) :=
  match vid, vname, vuid, vscore with
  | Value.vint i, Value.vstr nm, Value.vstr u, Value.vint sc =>
    match vcreated with
    | Value.vstr c =>
      if rows.any (fun x => x.id = i) then
        some (rows.map (fun old =>
          if old.id = i then { old with name := nm, uid := u, score := sc } else old))
      else
        some (rows ++ [⟨i, nm, u, sc, some c⟩])
    | Value.vnull =>
      if rows.any (fun x => x.id = i) then
        some (rows.map (fun old =>
          if old.id = i then { old with name := nm, uid := u, score := sc } else old))
      else
        some (rows ++ [⟨i, nm, u, sc, none⟩])
    | _ => none
  | _, _, _, _ => none

/-- Whether a value can be bound to a text-like (varchar/uuid/timestamp)
parameter slot at all (NULL binds fine; the constraint check is separate). -/
def textBindOk : Value → Bool
  | Value.vstr _ => true
  | Value.vnull => true
  | _ => false

/-- Whether a value can be bound to an integer parameter slot. -/
def intBindOk : Value → Bool
  | Value.vint _ => true
  | Value.vnull => true
  | _ => false

/-- The CDC update statement: `UPDATE person SET name = $2, uid = $3,
score = $4 WHERE id = $1`.  A value the driver cannot bind fails
immediately; `WHERE id = NULL` matches no row and succeeds; a NULL SET
value violates NOT NULL only if some row actually matches. -/
def execUpdate (rows : List Row) (vid vname vuid vscore : Value) :
    Option (List Row) :=
  if intBindOk vid && textBindOk vname && textBindOk vuid && intBindOk vscore then
    match vid with
    | Value.vnull => some rows
    | Value.vint i =>
      if rows.all (fun r => decide (r.id ≠ i)) then
        some rows
      else
        match vname, vuid, vscore with
        | Value.vstr nm, Value.vstr u, Value.vint sc =>
          some (rows.map (fun old =>
            if old.id = i then { old with name := nm, uid := u, score := sc } else old))
        | _, _, _ => none
    | _ => none
  else
    none

/-- The CDC delete statement: `DELETE FROM person WHERE id = $1`.
Deleting with a key that matches nothing (including NULL) succeeds and
removes no row. -/
def execDelete (rows : List Row) (vid : Value) : Option (List Row) :=
  match vid with
  | Value.vint i => some (rows.filter (fun r => decide (r.id ≠ i)))
  | Value.vnull => some rows
  | _ => none

/-- Outcome of routing one decoded change through the apply switch:
the resulting rows, whether `processedChanges` was incremented, and
whether a statement error was logged. -/
structure ApplyOutcome where
  rows : List Row
  applied : Bool
  errored : Bool
  deriving DecidableEq, Repr

/-- The apply engine's `switch change.Action` statement.  `I` builds the
values map from `columns` and upserts; `U` builds the map from `columns`
(also for the key — `identity` is not consulted) and updates; `D` builds
the map from `identity` and deletes.  Any other action matches no case
and falls through silently. -/
def applyChange (c : WAL2JSONChange) (rows : List Row) : ApplyOutcome :=
  if c.action = "I" then
    match execInsert rows (colValue c.columns "id") (colValue c.columns "name")
        (colValue c.columns "uid") (colValue c.columns "score")
        (colValue c.columns "created_at") with
    | some rows2 => ⟨rows2, true, false⟩
    | none => ⟨rows, false, true⟩
  else if c.action = "U" then
    match execUpdate rows (colValue c.columns "id") (colValue c.columns "name")
        (colValue c.columns "uid") (colValue c.columns "score") with
    | some rows2 => ⟨rows2, true, false⟩
    | none => ⟨rows, false, true⟩
  else if c.action = "D" then
    match execDelete rows (colValue c.identity "id") with
    | some rows2 => ⟨rows2, true, false⟩
    | none => ⟨rows, false, true⟩
  else
    ⟨rows, false, false⟩

/-- A JSON document, as far as Go's `encoding/json` sees one change
record.  Numbers are integers (the only numeric shape wal2json emits for
this schema). -/
inductive Json where
  | jnull
  | jbool (b : Bool)
  | jnum (n : Int)
  | jstr (s : String)
  | jarr (elems : List Json)
  | jobj (fields : List (String × Json))

/-- Look up one key of a JSON object the way `encoding/json` does: with
duplicate keys the last occurrence wins; a missing key is simply absent. -/
def getField (fields : List (String × Json)) (k : String) : Option Json :=
  (fields.reverse.find? (fun p => p.1 = k)).map (fun p => p.2)

/-- Unmarshal one object field into a Go `string` struct field: a missing
key or JSON null leaves the zero value `""` without error; a present
non-string, non-null value is an unmarshal type error. -/
def decodeStr (fields : List (String × Json)) (k : String) :
    Except String String :=
  match getField fields k with
  | none => Except.ok ""
  | some Json.jnull => Except.ok ""
  | some (Json.jstr s) => Except.ok s
  | some _ => Except.error ("cannot unmarshal " ++ k)

/-- Unmarshal a JSON value into a Go `any`. -/
def jsonToValue : Json → Value
  | Json.jnull => Value.vnull
  | Json.jbool b => Value.vbool b
  | Json.jnum n => Value.vint n
  | Json.jstr s => Value.vstr s
  | Json.jarr _ => Value.vcomposite
  | Json.jobj _ => Value.vcomposite

/-- Unmarshal one element of a `columns`/`identity` array into the Go
`WAL2JSONColumn` struct: a null element leaves the zero struct; any
non-object, non-null element is an error; a missing `value` key leaves a
Go `nil`, which later binds as SQL NULL. -/
def decodeColumn (j : Json) : Except String WAL2JSONColumn :=
  match j with
  | Json.jobj fields =>
    match decodeStr fields "name" with
    | Except.error e => Except.error e
    | Except.ok nm =>
      match decodeStr fields "type" with
      | Except.error e => Except.error e
      | Except.ok ty =>
        match getField fields "value" with
        | none => Except.ok ⟨nm, ty, Value.vnull⟩
        | some jv => Except.ok ⟨nm, ty, jsonToValue jv⟩
  | Json.jnull => Except.ok ⟨"", "", Value.vnull⟩
  | _ => Except.error "cannot unmarshal column"

/-- Unmarshal the `columns` or `identity` field into a Go slice: missing
key or null leaves the nil (empty) slice; a non-array value is an error. -/
def decodeColumns (fields : List (String × Json)) (k : String) :
    Except String (List WAL2JSONColumn) :=
  match getField fields k with
  | none => Except.ok []
  | some Json.jnull => Except.ok []
  | some (Json.jarr xs) => xs.mapM decodeColumn
  | some _ => Except.error ("cannot unmarshal " ++ k)

/-- The change decoder: `json.Unmarshal(data, &change)` into the Go
`WAL2JSONChange` struct.  Text that is not valid JSON is modelled as
`none` and fails; JSON `null` leaves the zero struct without error; a
non-object document fails; in an object every struct field is optional
and a missing field keeps its zero value — in particular a record
lacking `action` decodes successfully with `action = ""`. -/
def decodeChange (raw : Option Json) : Except String WAL2JSONChange :=
  match raw with
  | none => Except.error "invalid JSON"
  | some Json.jnull => Except.ok ⟨"", "", "", "", [], []⟩
  | some (Json.jobj fields) =>
    match decodeStr fields "action" with
    | Except.error e => Except.error e
    | Except.ok act =>
      match decodeStr fields "timestamp" with
      | Except.error e => Except.error e
      | Except.ok ts =>
        match decodeStr fields "schema" with
        | Except.error e => Except.error e
        | Except.ok sch =>
          match decodeStr fields "table" with
          | Except.error e => Except.error e
          | Except.ok tbl =>
            match decodeColumns fields "columns" with
            | Except.error e => Except.error e
            | Except.ok cols =>
              match decodeColumns fields "identity" with
              | Except.error e => Except.error e
              | Except.ok ident =>
                Except.ok ⟨act, ts, sch, tbl, cols, ident⟩
  | some _ => Except.error "cannot unmarshal change"

/-- Poller state while draining one tick: the target rows and the
`processedChanges` counter. -/
structure TickState where
  rows : List Row
  processed : Nat
  deriving DecidableEq, Repr

/-- Process one raw record of a tick: decode (a failure is logged and the
record discarded), filter by table name, and route through the apply
switch, counting successfully applied events. -/
def processRecord (s : TickState) (raw : Option Json) : TickState :=
  match decodeChange raw with
  | Except.error _ => s
  | Except.ok c =>
    if c.table ≠ "person" then s
    else
      let o := applyChange c s.rows
      ⟨o.rows, s.processed + (if o.applied then 1 else 0)⟩

/-- Process the raw records returned by one slot consumption, in emission
order. -/
def processTick (raws : List (Option Json)) (s : TickState) : TickState :=
  raws.foldl processRecord s

/-- One bulk-load write: `INSERT INTO person (id, name, uid, score,
created_at) VALUES ($1..$5) ON CONFLICT (id) DO NOTHING` — a row whose
primary key is already present is skipped and the existing row left
untouched. -/
def insertSkip (rows : List Row) (r : Row) : List Row :=
  if rows.any (fun x => x.id = r.id) then rows else rows ++ [r]

/-- Split the scanned bulk-load rows into the batches the loader sends,
exactly as the Go loop does: each row is queued onto the current batch,
the batch is flushed as soon as it holds 100 statements, and a non-empty
final batch is flushed after the scan.  `batch` is the partial batch
accumulated so far. -/
def toBatches {α : Type} : List α → List α → List (List α)
  | [], batch => match batch with
    | [] => []
    | b :: bs => [b :: bs]
  | x :: xs, batch =>
    if 100 ≤ (batch ++ [x]).length then (batch ++ [x]) :: toBatches xs []
    else toBatches xs (batch ++ [x])

/-- Send one batch: its statements run in order against the target. -/
def applyBatch (rows : List Row) (b : List Row) : List Row :=
  b.foldl insertSkip rows

/-- Read the source rows the way the bulk query does:
`SELECT id, name, uid, score, created_at FROM person ORDER BY id`. -/
def sortedSource (src : List Row) : List Row :=
  List.insertionSort (fun a b => a.id ≤ b.id) src

/-- The value of `SELECT COALESCE(MAX(id), 0) FROM person`. -/
def maxId (rows : List Row) : Int :=
  match rows.map (fun r => r.id) with
  | [] => 0
  | x :: xs => xs.foldl max x

/-- The bulk loader: read all source rows in primary-key order, queue
each scanned row (counting it) into batches of at most 100 skip-on-
conflict inserts, send the batches, then restart the target's id
sequence at `max(id) + 1` — but only when the observed maximum is
positive.  Returns the new target state and the `copiedCount` that is
reported. -/
def loadAll (src : List Row) (t : Target) : Target × Nat :=
  let sorted := sortedSource src
  let rows2 := (toBatches sorted []).foldl applyBatch t.rows
  let m := maxId rows2
  (⟨rows2, if 0 < m then m + 1 else t.seq⟩, sorted.length)

/-- A well-formed wal2json insert record for the `person` table, carrying
the full new row in `columns` and no `identity`. -/
def mkInsert (i : Int) (nm u : String) (sc : Int) (ca : Value) : WAL2JSONChange :=
  ⟨"I", "2024-01-01 00:00:00+00", "public", "person",
    [⟨"id", "integer", Value.vint i⟩,
     ⟨"name", "character varying(100)", Value.vstr nm⟩,
     ⟨"uid", "uuid", Value.vstr u⟩,
     ⟨"score", "integer", Value.vint sc⟩,
     ⟨"created_at", "timestamp without time zone", ca⟩], []⟩

/-- A well-formed wal2json update record for the `person` table: the new
row in `columns`, and the (old) primary key `j` in `identity`. -/
def mkUpdate (i : Int) (nm u : String) (sc : Int) (ca : Value) (j : Int) :
    WAL2JSONChange :=
  ⟨"U", "2024-01-01 00:00:00+00", "public", "person",
    [⟨"id", "integer", Value.vint i⟩,
     ⟨"name", "character varying(100)", Value.vstr nm⟩,
     ⟨"uid", "uuid", Value.vstr u⟩,
     ⟨"score", "integer", Value.vint sc⟩,
     ⟨"created_at", "timestamp without time zone", ca⟩],
    [⟨"id", "integer", Value.vint j⟩]⟩

/-- A well-formed wal2json delete record for the `person` table: only the
primary key, in `identity`. -/
def mkDelete (v : Value) : WAL2JSONChange :=
  ⟨"D", "2024-01-01 00:00:00+00", "public", "person", [],
    [⟨"id", "integer", v⟩]⟩

/-- The wal2json wire document of an insert for the `person` table. -/
def insertJson (i : Int) (nm u : String) (sc : Int) (ca : String) : Json :=
  Json.jobj
    [("action", Json.jstr "I"),
     ("timestamp", Json.jstr "2024-01-01 00:00:00+00"),
     ("schema", Json.jstr "public"),
     ("table", Json.jstr "person"),
     ("columns", Json.jarr
       [Json.jobj [("name", Json.jstr "id"), ("type", Json.jstr "integer"),
         ("value", Json.jnum i)],
        Json.jobj [("name", Json.jstr "name"),
         ("type", Json.jstr "character varying(100)"), ("value", Json.jstr nm)],
        Json.jobj [("name", Json.jstr "uid"), ("type", Json.jstr "uuid"),
         ("value", Json.jstr u)],
        Json.jobj [("name", Json.jstr "score"), ("type", Json.jstr "integer"),
         ("value", Json.jnum sc)],
        Json.jobj [("name", Json.jstr "created_at"),
         ("type", Json.jstr "timestamp without time zone"),
         ("value", Json.jstr ca)]])]

/-- The wal2json wire document of an update for the `person` table, with
the old primary key `j` in `identity`. -/
def updateJson (i : Int) (nm u : String) (sc : Int) (ca : String) (j : Int) :
    Json :=
  Json.jobj
    [("action", Json.jstr "U"),
     ("timestamp", Json.jstr "2024-01-01 00:00:00+00"),
     ("schema", Json.jstr "public"),
     ("table", Json.jstr "person"),
     ("columns", Json.jarr
       [Json.jobj [("name", Json.jstr "id"), ("type", Json.jstr "integer"),
         ("value", Json.jnum i)],
        Json.jobj [("name", Json.jstr "name"),
         ("type", Json.jstr "character varying(100)"), ("value", Json.jstr nm)],
        Json.jobj [("name", Json.jstr "uid"), ("type", Json.jstr "uuid"),
         ("value", Json.jstr u)],
        Json.jobj [("name", Json.jstr "score"), ("type", Json.jstr "integer"),
         ("value", Json.jnum sc)],
        Json.jobj [("name", Json.jstr "created_at"),
         ("type", Json.jstr "timestamp without time zone"),
         ("value", Json.jstr ca)]]),
     ("identity", Json.jarr
       [Json.jobj [("name", Json.jstr "id"), ("type", Json.jstr "integer"),
         ("value", Json.jnum j)]])]

/-- The wal2json wire document of a delete for the `person` table. -/
def deleteJson (j : Int) : Json :=
  Json.jobj
    [("action", Json.jstr "D"),
     ("timestamp", Json.jstr "2024-01-01 00:00:00+00"),
     ("schema", Json.jstr "public"),
     ("table", Json.jstr "person"),
     ("identity", Json.jarr
       [Json.jobj [("name", Json.jstr "id"), ("type", Json.jstr "integer"),
         ("value", Json.jnum j)]])]

/-- Primary-key uniqueness of a row set: no two rows share an `id`. -/
def pkUnique (rows : List Row) : Prop :=
  (rows.map (fun r => r.id)).Nodup

instance (rows : List Row) : Decidable (pkUnique rows) := by
  unfold pkUnique
  infer_instance

instance : IsTotal Row (fun a b => a.id ≤ b.id) :=
  ⟨fun a b => le_total a.id b.id⟩

instance : IsTrans Row (fun a b => a.id ≤ b.id) :=
  ⟨fun _ _ _ h1 h2 => le_trans h1 h2⟩

theorem foldl_max_init_le (xs : List Int) (init : Int) :
    init ≤ xs.foldl max init := by
  induction xs generalizing init with
  | nil => simp
  | cons a tl ih =>
    simp only [List.foldl_cons]
    exact le_trans (le_max_left init a) (ih (max init a))

theorem foldl_max_mem_le (xs : List Int) (init a : Int) (h : a ∈ xs) :
    a ≤ xs.foldl max init := by
  induction xs generalizing init with
  | nil => cases h
  | cons b tl ih =>
    simp only [List.foldl_cons]
    rcases List.mem_cons.mp h with rfl | h2
    · exact le_trans (le_max_right init a) (foldl_max_init_le tl (max init a))
    · exact ih (max init b) h2

theorem id_le_maxId (rows : List Row) (r : Row) (h : r ∈ rows) :
    r.id ≤ maxId rows := by
  cases rows with
  | nil => cases h
  | cons a tl =>
    simp only [maxId, List.map_cons]
    rcases List.mem_cons.mp h with rfl | h2
    · exact foldl_max_init_le _ _
    · exact foldl_max_mem_le _ _ _ (List.mem_map_of_mem _ h2)

theorem insertSkip_eq_or_append (rows : List Row) (r : Row) :
    insertSkip rows r = rows ∨ insertSkip rows r = rows ++ [r] := by
  unfold insertSkip
  split
  · exact Or.inl rfl
  · exact Or.inr rfl

theorem mem_insertSkip (rows : List Row) (r a : Row) (h : a ∈ rows) :
    a ∈ insertSkip rows r := by
  rcases insertSkip_eq_or_append rows r with h2 | h2 <;> rw [h2] <;> simp [h]

theorem exists_foldl_insertSkip_append (xs rows : List Row) :
    ∃ l, xs.foldl insertSkip rows = rows ++ l := by
  induction xs generalizing rows with
  | nil => exact ⟨[], by simp⟩
  | cons a tl ih =>
    simp only [List.foldl_cons]
    rcases insertSkip_eq_or_append rows a with h | h
    · rw [h]; exact ih rows
    · rw [h]
      rcases ih (rows ++ [a]) with ⟨l, hl⟩
      exact ⟨[a] ++ l, by rw [hl, List.append_assoc]⟩

theorem mem_foldl_insertSkip (xs rows : List Row) (a : Row) (h : a ∈ rows) :
    a ∈ xs.foldl insertSkip rows := by
  rcases exists_foldl_insertSkip_append xs rows with ⟨l, hl⟩
  rw [hl]
  exact List.mem_append_left _ h

theorem idCovered_insertSkip (rows : List Row) (r : Row) :
    ∃ x ∈ insertSkip rows r, x.id = r.id := by
  unfold insertSkip
  split
  · next h =>
      rcases List.any_eq_true.mp h with ⟨x, hx, he⟩
      exact ⟨x, hx, of_decide_eq_true he⟩
  · exact ⟨r, by simp, rfl⟩

theorem insertSkip_skip (rows : List Row) (r : Row)
    (h : ∃ x ∈ rows, x.id = r.id) : insertSkip rows r = rows := by
  unfold insertSkip
  rw [if_pos]
  rcases h with ⟨x, hx, he⟩
  exact List.any_eq_true.mpr ⟨x, hx, decide_eq_true he⟩

theorem idCovered_foldl_insertSkip (xs rows : List Row) (r : Row) (h : r ∈ xs) :
    ∃ x ∈ xs.foldl insertSkip rows, x.id = r.id := by
  induction xs generalizing rows with
  | nil => cases h
  | cons a tl ih =>
    simp only [List.foldl_cons]
    rcases List.mem_cons.mp h with rfl | h2
    · rcases idCovered_insertSkip rows r with ⟨x, hx, he⟩
      exact ⟨x, mem_foldl_insertSkip tl _ x hx, he⟩
    · exact ih _ h2

theorem foldl_insertSkip_covered_eq (xs rows : List Row)
    (h : ∀ r ∈ xs, ∃ x ∈ rows, x.id = r.id) :
    xs.foldl insertSkip rows = rows := by
  induction xs with
  | nil => rfl
  | cons a tl ih =>
    simp only [List.foldl_cons]
    rw [insertSkip_skip rows a (h a (by simp))]
    exact ih (fun r hr => h r (by simp [hr]))

theorem foldl_insertSkip_idem (xs rows : List Row) :
    xs.foldl insertSkip (xs.foldl insertSkip rows) = xs.foldl insertSkip rows :=
  foldl_insertSkip_covered_eq xs _ (fun r hr => idCovered_foldl_insertSkip xs rows r hr)

theorem foldl_insertSkip_fresh (xs : List Row) (acc : List Row)
    (hdis : ∀ r ∈ xs, ∀ x ∈ acc, x.id ≠ r.id)
    (hnd : (xs.map (fun r => r.id)).Nodup) :
    xs.foldl insertSkip acc = acc ++ xs := by
  induction xs generalizing acc with
  | nil => simp
  | cons a tl ih =>
    rw [List.map_cons, List.nodup_cons] at hnd
    obtain ⟨hnotin, hnd2⟩ := hnd
    simp only [List.foldl_cons]
    have hins : insertSkip acc a = acc ++ [a] := by
      unfold insertSkip
      rw [if_neg]
      intro hany
      rcases List.any_eq_true.mp hany with ⟨x, hx, he⟩
      exact hdis a (by simp) x hx (of_decide_eq_true he)
    rw [hins]
    have hdis2 : ∀ r ∈ tl, ∀ x ∈ acc ++ [a], x.id ≠ r.id := by
      intro r hr x hx
      rcases List.mem_append.mp hx with hx2 | hx2
      · exact hdis r (by simp [hr]) x hx2
      · rcases List.mem_singleton.mp hx2 with rfl
        intro he
        exact hnotin (he ▸ List.mem_map_of_mem _ hr)
    rw [ih (acc ++ [a]) hdis2 hnd2, List.append_assoc]
    rfl

theorem filter_ne_eq_erase (rows : List Row) (r0 : Row) (i : Int)
    (hu : pkUnique rows) (hmem : r0 ∈ rows) (hid : r0.id = i) :
    rows.filter (fun r => decide (r.id ≠ i)) = rows.erase r0 := by
  induction rows with
  | nil => cases hmem
  | cons a tl ih =>
    rw [pkUnique, List.map_cons, List.nodup_cons] at hu
    obtain ⟨hnotin, hnd⟩ := hu
    by_cases hae : a = r0
    · subst hae
      rw [List.filter_cons, List.erase_cons_head]
      have h1 : (decide (a.id ≠ i)) = false := by simp [hid]
      rw [h1]
      simp only [Bool.false_eq_true, if_false]
      apply List.filter_eq_self.mpr
      intro x hx
      have : x.id ≠ i := by
        intro he
        exact hnotin (hid ▸ he ▸ List.mem_map_of_mem _ hx)
      simpa using this
    · have hm : r0 ∈ tl := by
        rcases List.mem_cons.mp hmem with h | h
        · exact absurd h.symm hae
        · exact h
      have haid : a.id ≠ i := by
        intro he
        exact hnotin (he ▸ hid ▸ List.mem_map_of_mem (fun r => r.id) hm)
      rw [List.filter_cons, List.erase_cons_tail]
      · have h1 : (decide (a.id ≠ i)) = true := by simpa using haid
        rw [h1]
        simp only [if_true]
        rw [ih hnd hm]
      · simpa using hae

theorem toBatches_foldl (xs batch rows : List Row) :
    (toBatches xs batch).foldl applyBatch rows =
      (batch ++ xs).foldl insertSkip rows := by
  induction xs generalizing batch rows with
  | nil =>
    cases batch with
    | nil => rfl
    | cons b bs =>
      simp only [toBatches, List.foldl_cons, List.foldl_nil, List.append_nil]
      rfl
  | cons x tl ih =>
    simp only [toBatches]
    by_cases h : 100 ≤ (batch ++ [x]).length
    · rw [if_pos h, List.foldl_cons, ih [] (applyBatch rows (batch ++ [x]))]
      simp only [List.nil_append]
      rw [applyBatch, ← List.foldl_append, List.append_assoc]
      rfl
    · rw [if_neg h, ih (batch ++ [x]) rows, List.append_assoc]
      rfl

theorem toBatches_length_le {α : Type} (xs : List α) (batch : List α)
    (h : batch.length < 100) (b : List α) (hb : b ∈ toBatches xs batch) :
    b.length ≤ 100 := by
  induction xs generalizing batch with
  | nil =>
    cases batch with
    | nil => simp [toBatches] at hb
    | cons a tl =>
      simp only [toBatches] at hb
      rcases List.mem_singleton.mp hb with rfl
      exact le_of_lt h
  | cons x tl ih =>
    simp only [toBatches] at hb
    by_cases hl : 100 ≤ (batch ++ [x]).length
    · rw [if_pos hl] at hb
      rcases List.mem_cons.mp hb with rfl | hb2
      · simp only [List.length_append, List.length_singleton]
        omega
      · exact ih [] (by simp) hb2
    · rw [if_neg hl] at hb
      refine ih (batch ++ [x]) ?_ hb
      simp only [List.length_append, List.length_singleton] at hl ⊢
      omega

theorem loadAll_rows (src : List Row) (t : Target) :
    (loadAll src t).1.rows = (sortedSource src).foldl insertSkip t.rows := by
  simp only [loadAll]
  have h := toBatches_foldl (sortedSource src) [] t.rows
  simpa using h

theorem loadAll_count (src : List Row) (t : Target) :
    (loadAll src t).2 = src.length := by
  simp only [loadAll, sortedSource]
  exact (List.perm_insertionSort _ src).length_eq

theorem loadAll_seq (src : List Row) (t : Target) :
    (loadAll src t).1.seq =
      if 0 < maxId ((loadAll src t).1.rows) then maxId ((loadAll src t).1.rows) + 1
      else t.seq := by
  simp only [loadAll]

theorem applyChange_mkInsert (i : Int) (nm u : String) (sc : Int) (ca : Value)
    (rows : List Row) :
    applyChange (mkInsert i nm u sc ca) rows =
      match execInsert rows (Value.vint i) (Value.vstr nm) (Value.vstr u)
          (Value.vint sc) ca with
      | some rows2 => ⟨rows2, true, false⟩
      | none => ⟨rows, false, true⟩ := rfl

theorem applyChange_mkUpdate (i : Int) (nm u : String) (sc : Int) (ca : Value)
    (j : Int) (rows : List Row) :
    applyChange (mkUpdate i nm u sc ca j) rows =
      match execUpdate rows (Value.vint i) (Value.vstr nm) (Value.vstr u)
          (Value.vint sc) with
      | some rows2 => ⟨rows2, true, false⟩
      | none => ⟨rows, false, true⟩ := rfl

theorem applyChange_mkDelete (v : Value) (rows : List Row) :
    applyChange (mkDelete v) rows =
      match execDelete rows v with
      | some rows2 => ⟨rows2, true, false⟩
      | none => ⟨rows, false, true⟩ := rfl

theorem execInsert_fresh (rows : List Row) (i : Int) (nm u : String) (sc : Int)
    (ca : String) (h : ∀ r ∈ rows, r.id ≠ i) :
    execInsert rows (Value.vint i) (Value.vstr nm) (Value.vstr u)
        (Value.vint sc) (Value.vstr ca) =
      some (rows ++ [⟨i, nm, u, sc, some ca⟩]) := by
  simp only [execInsert]
  rw [if_neg]
  intro hany
  rcases List.any_eq_true.mp hany with ⟨x, hx, he⟩
  exact h x hx (of_decide_eq_true he)

theorem execInsert_conflict (rows : List Row) (i : Int) (nm u : String)
    (sc : Int) (ca : String) (h : ∃ r ∈ rows, r.id = i) :
    execInsert rows (Value.vint i) (Value.vstr nm) (Value.vstr u)
        (Value.vint sc) (Value.vstr ca) =
      some (rows.map (fun old =>
        if old.id = i then { old with name := nm, uid := u, score := sc }
        else old)) := by
  simp only [execInsert]
  rw [if_pos]
  rcases h with ⟨x, hx, he⟩
  exact List.any_eq_true.mpr ⟨x, hx, decide_eq_true he⟩

theorem execUpdate_wellTyped (rows : List Row) (i : Int) (nm u : String)
    (sc : Int) :
    execUpdate rows (Value.vint i) (Value.vstr nm) (Value.vstr u)
        (Value.vint sc) =
      some (rows.map (fun old =>
        if old.id = i then { old with name := nm, uid := u, score := sc }
        else old)) := by
  simp only [execUpdate, intBindOk, textBindOk, Bool.and_self, if_true]
  by_cases hall : ∀ r ∈ rows, r.id ≠ i
  · rw [if_pos (List.all_eq_true.mpr (fun r hr => decide_eq_true (hall r hr)))]
    have : rows.map (fun old =>
        if old.id = i then { old with name := nm, uid := u, score := sc }
        else old) = rows := by
      have h2 : rows.map (fun old =>
          if old.id = i then { old with name := nm, uid := u, score := sc }
          else old) = rows.map id :=
        List.map_congr_left (fun x hx => by rw [if_neg (hall x hx)]; rfl)
      rw [h2, List.map_id]
    rw [this]
  · rw [if_neg]
    intro hallb
    apply hall
    intro r hr
    exact of_decide_eq_true (List.all_eq_true.mp hallb r hr)

theorem execDelete_vint (rows : List Row) (i : Int) :
    execDelete rows (Value.vint i) =
      some (rows.filter (fun r => decide (r.id ≠ i))) := rfl

theorem applyChange_unknown (c : WAL2JSONChange) (rows : List Row)
    (hI : c.action ≠ "I") (hU : c.action ≠ "U") (hD : c.action ≠ "D") :
    applyChange c rows = ⟨rows, false, false⟩ := by
  unfold applyChange
  rw [if_neg hI, if_neg hU, if_neg hD]

theorem processRecord_noop (raw : Option Json) (c : WAL2JSONChange)
    (s : TickState) (hdec : decodeChange raw = Except.ok c)
    (happ : applyChange c s.rows = ⟨s.rows, false, false⟩) :
    processRecord s raw = s := by
  unfold processRecord
  rw [hdec]
  by_cases ht : c.table = "person"
  · simp [ht, happ]
  · simp [ht]

/-- Claim C1, counterexample to the claim as stated: an Insert event for an
already-present key carries `created_at = 2024-02-02`, yet after the apply
the target row still holds its old `created_at = 2024-01-01` — the
conflict branch of the upsert does not overwrite this non-key field. -/
theorem C1_counterexample :
    (applyChange
        (mkInsert 1 "Bob" "00000000-0000-0000-0000-000000000002" 9
          (Value.vstr "2024-02-02 00:00:00"))
        [⟨1, "Alice", "00000000-0000-0000-0000-000000000001", 5,
          some "2024-01-01 00:00:00"⟩]).rows =
      [⟨1, "Bob", "00000000-0000-0000-0000-000000000002", 9,
        some "2024-01-01 00:00:00"⟩] ∧
    (some "2024-01-01 00:00:00" : Option String) ≠ some "2024-02-02 00:00:00" :=
  ⟨rfl, by decide⟩

/-- Claim C1 (amended): for every Insert change event the apply engine
issues an upsert keyed by the primary key taken from `columns`: if no row
with that id exists, the full row (id, name, uid, score, created_at) from
the event's columns is inserted; if a row with that id already exists, its
name, uid and score are overwritten with the incoming values while its
created_at keeps the value already present in the target. -/
theorem C1_insert_upsert (i : Int) (nm u : String) (sc : Int) (ca : String)
    (rows : List Row) :
    (applyChange (mkInsert i nm u sc (Value.vstr ca)) rows).errored = false ∧
    ((∀ r ∈ rows, r.id ≠ i) →
      (applyChange (mkInsert i nm u sc (Value.vstr ca)) rows).rows =
        rows ++ [⟨i, nm, u, sc, some ca⟩]) ∧
    ((∃ r ∈ rows, r.id = i) →
      (applyChange (mkInsert i nm u sc (Value.vstr ca)) rows).rows =
        rows.map (fun old =>
          if old.id = i then { old with name := nm, uid := u, score := sc }
          else old)) := by
  rw [applyChange_mkInsert]
  refine ⟨?_, ?_, ?_⟩
  · by_cases h : ∀ r ∈ rows, r.id ≠ i
    · rw [execInsert_fresh rows i nm u sc ca h]
    · push_neg at h
      rw [execInsert_conflict rows i nm u sc ca h]
  · intro h
    rw [execInsert_fresh rows i nm u sc ca h]
  · intro h
    rw [execInsert_conflict rows i nm u sc ca h]

/-- Claim C1, witness: the amended theorem evaluated on a fresh insert and
on a re-delivered insert of the same key. -/
theorem C1_insert_upsert_witness :
    (applyChange (mkInsert 7 "Alice" "00000000-0000-0000-0000-000000000007" 10
        (Value.vstr "2024-03-03 00:00:00")) []).rows =
      [⟨7, "Alice", "00000000-0000-0000-0000-000000000007", 10,
        some "2024-03-03 00:00:00"⟩] ∧
    (applyChange (mkInsert 7 "Alice" "00000000-0000-0000-0000-000000000007" 10
        (Value.vstr "2024-03-03 00:00:00"))
        [⟨7, "Alice", "00000000-0000-0000-0000-000000000007", 10,
          some "2024-03-03 00:00:00"⟩]).rows =
      [⟨7, "Alice", "00000000-0000-0000-0000-000000000007", 10,
        some "2024-03-03 00:00:00"⟩] := by
  constructor
  · exact (C1_insert_upsert 7 "Alice" "00000000-0000-0000-0000-000000000007" 10
      "2024-03-03 00:00:00" []).2.1 (by simp)
  · rw [(C1_insert_upsert 7 "Alice" "00000000-0000-0000-0000-000000000007" 10
      "2024-03-03 00:00:00" _).2.2 ⟨_, List.mem_singleton_self _, rfl⟩]
    rfl

/-- Claim C7, counterexample to the claim as stated: an Update event whose
`columns` carry `created_at = 2030-05-05` leaves the matched row's
created_at at its old value 2024-01-01, so not every non-key field is
overwritten with the values from `columns`. -/
theorem C7_counterexample :
    (applyChange
        (mkUpdate 1 "Bob" "00000000-0000-0000-0000-000000000002" 8
          (Value.vstr "2030-05-05 00:00:00") 1)
        [⟨1, "Alice", "00000000-0000-0000-0000-000000000001", 5,
          some "2024-01-01 00:00:00"⟩]).rows =
      [⟨1, "Bob", "00000000-0000-0000-0000-000000000002", 8,
        some "2024-01-01 00:00:00"⟩] ∧
    (some "2024-01-01 00:00:00" : Option String) ≠ some "2030-05-05 00:00:00" :=
  ⟨rfl, by decide⟩

/-- Claim C7 (amended): for every Update change event the apply engine
locates the target row by the primary key taken from the event's
`columns` — the `identity` key `j` plays no part in the result — and
overwrites that row's name, uid and score with the values from `columns`,
leaving created_at unchanged. -/
theorem C7_update_by_columns (i : Int) (nm u : String) (sc : Int) (ca : Value)
    (j : Int) (rows : List Row) :
    (applyChange (mkUpdate i nm u sc ca j) rows).rows =
      rows.map (fun old =>
        if old.id = i then { old with name := nm, uid := u, score := sc }
        else old) ∧
    (applyChange (mkUpdate i nm u sc ca j) rows).errored = false := by
  rw [applyChange_mkUpdate, execUpdate_wellTyped]
  exact ⟨rfl, rfl⟩

/-- Claim C6: for every Delete change event, applying it never reports an
error; when the identity primary key matches no target row the row set is
left unchanged (a no-op success), and when a matching row exists — under
primary-key uniqueness — exactly that row is removed. -/
theorem C6_delete_absent (i : Int) (rows : List Row) :
    (applyChange (mkDelete (Value.vint i)) rows).errored = false ∧
    ((∀ r ∈ rows, r.id ≠ i) →
      (applyChange (mkDelete (Value.vint i)) rows).rows = rows) ∧
    (∀ r0 ∈ rows, r0.id = i → pkUnique rows →
      (applyChange (mkDelete (Value.vint i)) rows).rows = rows.erase r0) := by
  rw [applyChange_mkDelete, execDelete_vint]
  refine ⟨rfl, ?_, ?_⟩
  · intro h
    exact List.filter_eq_self.mpr (fun a ha => decide_eq_true (h a ha))
  · intro r0 h0 hid hu
    exact filter_ne_eq_erase rows r0 i hu h0 hid

/-- Claim C6, witness: deleting the absent key 999 from a one-row target
leaves it unchanged, and deleting the present key 1 removes that row. -/
theorem C6_delete_absent_witness :
    (applyChange (mkDelete (Value.vint 999))
        [⟨1, "Alice", "00000000-0000-0000-0000-000000000001", 5, none⟩]).rows =
      [⟨1, "Alice", "00000000-0000-0000-0000-000000000001", 5, none⟩] ∧
    (applyChange (mkDelete (Value.vint 1))
        [⟨1, "Alice", "00000000-0000-0000-0000-000000000001", 5, none⟩]).rows =
      [] := by
  constructor
  · exact (C6_delete_absent 999 _).2.1 (by decide)
  · rw [(C6_delete_absent 1 _).2.2
      ⟨1, "Alice", "00000000-0000-0000-0000-000000000001", 5, none⟩
      (List.mem_singleton_self _) rfl (by decide)]
    rfl

theorem decode_insertJson (i : Int) (nm u : String) (sc : Int) (ca : String) :
    decodeChange (some (insertJson i nm u sc ca)) =
      Except.ok (mkInsert i nm u sc (Value.vstr ca)) := rfl

theorem decode_updateJson (i : Int) (nm u : String) (sc : Int) (ca : String)
    (j : Int) :
    decodeChange (some (updateJson i nm u sc ca j)) =
      Except.ok (mkUpdate i nm u sc (Value.vstr ca) j) := rfl

theorem decode_deleteJson (j : Int) :
    decodeChange (some (deleteJson j)) =
      Except.ok (mkDelete (Value.vint j)) := rfl

theorem processRecord_person (raw : Option Json) (c : WAL2JSONChange)
    (s : TickState) (hdec : decodeChange raw = Except.ok c)
    (htbl : c.table = "person") :
    processRecord s raw =
      ⟨(applyChange c s.rows).rows,
        s.processed + (if (applyChange c s.rows).applied then 1 else 0)⟩ := by
  unfold processRecord
  rw [hdec]
  simp [htbl]

theorem processRecord_deleteJson_allNe (s : TickState) :
    ((processRecord s (some (deleteJson 1))).rows.all
      (fun r => decide (r.id ≠ 1))) = true := by
  rw [processRecord_person (some (deleteJson 1)) (mkDelete (Value.vint 1)) s
    (decode_deleteJson 1) rfl]
  show ((applyChange (mkDelete (Value.vint 1)) s.rows).rows.all
    (fun r => decide (r.id ≠ 1))) = true
  rw [applyChange_mkDelete, execDelete_vint]
  apply List.all_eq_true.mpr
  intro r hr
  exact (List.mem_filter.mp hr).2

/-- Claim C2: for every target state (and whatever the other field values
are), delivering the raw wal2json records Insert(id=1, score=5), then
Update(id=1, score=8), then Delete(id=1) in that order — all in one tick,
or one per tick — leaves the target with no row whose id is 1. -/
theorem C2_apply_ordering (rows : List Row) (nm1 u1 ca1 nm2 u2 ca2 : String) :
    ((processTick
        [some (insertJson 1 nm1 u1 5 ca1),
         some (updateJson 1 nm2 u2 8 ca2 1),
         some (deleteJson 1)] ⟨rows, 0⟩).rows.all
      (fun r => decide (r.id ≠ 1))) = true ∧
    ((processTick [some (deleteJson 1)]
        ⟨(processTick [some (updateJson 1 nm2 u2 8 ca2 1)]
            ⟨(processTick [some (insertJson 1 nm1 u1 5 ca1)] ⟨rows, 0⟩).rows,
              0⟩).rows, 0⟩).rows.all
      (fun r => decide (r.id ≠ 1))) = true := by
  constructor
  · show ((processRecord (processRecord (processRecord ⟨rows, 0⟩
        (some (insertJson 1 nm1 u1 5 ca1)))
        (some (updateJson 1 nm2 u2 8 ca2 1)))
        (some (deleteJson 1))).rows.all (fun r => decide (r.id ≠ 1))) = true
    exact processRecord_deleteJson_allNe _
  · show ((processRecord _ (some (deleteJson 1))).rows.all
      (fun r => decide (r.id ≠ 1))) = true
    exact processRecord_deleteJson_allNe _

/-- Claim C9: a successfully decoded change record for the target table
whose action is none of I, U, D mutates nothing in the target, raises no
error, and leaves the per-tick applied-changes count unchanged — the
record is silently skipped. -/
theorem C9_unknown_action (raw : Option Json) (c : WAL2JSONChange)
    (s : TickState) (hdec : decodeChange raw = Except.ok c)
    (htbl : c.table = "person")
    (hI : c.action ≠ "I") (hU : c.action ≠ "U") (hD : c.action ≠ "D") :
    processRecord s raw = s ∧
    applyChange c s.rows = ⟨s.rows, false, false⟩ :=
  ⟨processRecord_noop raw c s hdec (applyChange_unknown c s.rows hI hU hD),
   applyChange_unknown c s.rows hI hU hD⟩

/-- Claim C9, witness: a wal2json truncate record (action `T`) for the
`person` table is skipped without mutating the one-row target or the
counter. -/
theorem C9_unknown_action_witness :
    processRecord
        ⟨[⟨1, "Alice", "00000000-0000-0000-0000-000000000001", 5, none⟩], 3⟩
        (some (Json.jobj [("action", Json.jstr "T"),
          ("schema", Json.jstr "public"), ("table", Json.jstr "person")])) =
      ⟨[⟨1, "Alice", "00000000-0000-0000-0000-000000000001", 5, none⟩], 3⟩ :=
  (C9_unknown_action
    (some (Json.jobj [("action", Json.jstr "T"),
      ("schema", Json.jstr "public"), ("table", Json.jstr "person")]))
    ⟨"T", "", "public", "person", [], []⟩
    ⟨[⟨1, "Alice", "00000000-0000-0000-0000-000000000001", 5, none⟩], 3⟩
    rfl rfl (by decide) (by decide) (by decide)).1

/-- Claim C5, counterexample to the claim as stated: a syntactically valid
record with no `action` field does not yield a decode failure — Go's
unmarshalling leaves the missing field at its zero value and the record
decodes successfully. -/
theorem C5_counterexample :
    decodeChange (some (Json.jobj
      [("schema", Json.jstr "public"), ("table", Json.jstr "person")])) =
      Except.ok ⟨"", "", "public", "person", [], []⟩ := rfl

/-- Claim C5 (amended): a raw record that is invalid JSON fails to decode,
while a valid JSON record lacking the `action` field decodes successfully
with an empty action and is then skipped by the apply switch; in both
cases the record is discarded without error or state change, the poll
tick continues, and every subsequent record in the batch is processed
exactly as if the bad record were absent. -/
theorem C5_decoder_rejection :
    (decodeChange none).toOption = none ∧
    (∀ (raw : Option Json) (s : TickState),
      (decodeChange raw).toOption = none → processRecord s raw = s) ∧
    (∀ (fields : List (String × Json)) (c : WAL2JSONChange) (s : TickState),
      decodeChange (some (Json.jobj fields)) = Except.ok c →
      getField fields "action" = none →
      c.action = "" ∧ processRecord s (some (Json.jobj fields)) = s) ∧
    (∀ (raw : Option Json) (rest : List (Option Json)) (s : TickState),
      processRecord s raw = s →
      processTick (raw :: rest) s = processTick rest s) := by
  refine ⟨rfl, ?_, ?_, ?_⟩
  · intro raw s h
    unfold processRecord
    cases hd : decodeChange raw with
    | error e => rfl
    | ok c =>
      rw [hd] at h
      simp [Except.toOption] at h
  · intro fields c s hdec hact
    have hdec0 := hdec
    have ha : decodeStr fields "action" = Except.ok "" := by
      rw [decodeStr, hact]
    simp only [decodeChange] at hdec
    rw [ha] at hdec
    cases h1 : decodeStr fields "timestamp" with
    | error e => rw [h1] at hdec; cases hdec
    | ok ts =>
    rw [h1] at hdec
    cases h2 : decodeStr fields "schema" with
    | error e => rw [h2] at hdec; cases hdec
    | ok sch =>
    rw [h2] at hdec
    cases h3 : decodeStr fields "table" with
    | error e => rw [h3] at hdec; cases hdec
    | ok tbl =>
    rw [h3] at hdec
    cases h4 : decodeColumns fields "columns" with
    | error e => rw [h4] at hdec; cases hdec
    | ok cols =>
    rw [h4] at hdec
    cases h5 : decodeColumns fields "identity" with
    | error e => rw [h5] at hdec; cases hdec
    | ok ident =>
    rw [h5] at hdec
    cases hdec
    exact ⟨rfl, processRecord_noop (some (Json.jobj fields))
      ⟨"", ts, sch, tbl, cols, ident⟩ s hdec0
      (applyChange_unknown ⟨"", ts, sch, tbl, cols, ident⟩ s.rows
        (show ("" : String) ≠ "I" by decide)
        (show ("" : String) ≠ "U" by decide)
        (show ("" : String) ≠ "D" by decide))⟩
  · intro raw rest s h
    simp only [processTick, List.foldl_cons, h]

/-- Claim C5, witness: an invalid-JSON record is rejected and skipped, a
batch starting with it still processes its tail, and a record lacking
`action` is decoded but skipped. -/
theorem C5_decoder_rejection_witness :
    processRecord ⟨[], 0⟩ none = ⟨[], 0⟩ ∧
    processTick [none] ⟨[], 0⟩ = processTick [] ⟨[], 0⟩ ∧
    processRecord ⟨[], 2⟩
        (some (Json.jobj [("table", Json.jstr "person")])) = ⟨[], 2⟩ := by
  refine ⟨?_, ?_, ?_⟩
  · exact C5_decoder_rejection.2.1 none ⟨[], 0⟩ rfl
  · exact C5_decoder_rejection.2.2.2 none [] ⟨[], 0⟩
      (C5_decoder_rejection.2.1 none ⟨[], 0⟩ rfl)
  · exact (C5_decoder_rejection.2.2.1 [("table", Json.jstr "person")]
      ⟨"", "", "", "person", [], []⟩ ⟨[], 2⟩ rfl rfl).2

theorem targetExt (a b : Target) (h1 : a.rows = b.rows) (h2 : a.seq = b.seq) :
    a = b := by
  cases a
  cases b
  cases h1
  cases h2
  rfl

/-- Claim C3: bulk-loading a source of N distinct-keyed rows into an empty
target yields a target of exactly N rows that is a permutation of the
source (so each target row is field-for-field the source row with its
primary key), held in ascending primary-key order as read, and written in
batches of at most 100 rows. -/
theorem C3_bulk_load_complete (src : List Row) (q : Int) (hnd : pkUnique src) :
    (loadAll src ⟨[], q⟩).1.rows.length = src.length ∧
    List.Perm (loadAll src ⟨[], q⟩).1.rows src ∧
    List.Pairwise (fun a b => a.id ≤ b.id) (loadAll src ⟨[], q⟩).1.rows ∧
    (∀ b ∈ toBatches (sortedSource src) [], b.length ≤ 100) := by
  have hperm : List.Perm (sortedSource src) src :=
    List.perm_insertionSort _ src
  have hnd2 : (src.map (fun r => r.id)).Nodup := hnd
  have hnds : ((sortedSource src).map (fun r => r.id)).Nodup :=
    ((hperm.map (fun r => r.id)).nodup_iff).mpr hnd2
  have hrows : (loadAll src ⟨[], q⟩).1.rows = sortedSource src := by
    rw [loadAll_rows]
    have h2 := foldl_insertSkip_fresh (sortedSource src) []
      (fun r _ x hx => absurd hx (List.not_mem_nil x)) hnds
    simpa using h2
  refine ⟨?_, ?_, ?_, ?_⟩
  · rw [hrows]
    exact hperm.length_eq
  · rw [hrows]
    exact hperm
  · rw [hrows]
    exact List.sorted_insertionSort _ src
  · intro b hb
    exact toBatches_length_le _ [] (by decide) b hb

/-- Claim C3, witness: loading a two-row source (scanned out of key order)
into an empty target. -/
theorem C3_bulk_load_complete_witness :
    (loadAll
        [⟨2, "Bob", "00000000-0000-0000-0000-000000000002", 4, none⟩,
         ⟨1, "Alice", "00000000-0000-0000-0000-000000000001", 3, none⟩]
        ⟨[], 0⟩).1.rows.length = 2 ∧
    List.Perm
      (loadAll
        [⟨2, "Bob", "00000000-0000-0000-0000-000000000002", 4, none⟩,
         ⟨1, "Alice", "00000000-0000-0000-0000-000000000001", 3, none⟩]
        ⟨[], 0⟩).1.rows
      [⟨2, "Bob", "00000000-0000-0000-0000-000000000002", 4, none⟩,
       ⟨1, "Alice", "00000000-0000-0000-0000-000000000001", 3, none⟩] ∧
    List.Pairwise (fun a b => a.id ≤ b.id)
      (loadAll
        [⟨2, "Bob", "00000000-0000-0000-0000-000000000002", 4, none⟩,
         ⟨1, "Alice", "00000000-0000-0000-0000-000000000001", 3, none⟩]
        ⟨[], 0⟩).1.rows ∧
    (∀ b ∈ toBatches (sortedSource
        [⟨2, "Bob", "00000000-0000-0000-0000-000000000002", 4, none⟩,
         ⟨1, "Alice", "00000000-0000-0000-0000-000000000001", 3, none⟩]) [],
      b.length ≤ 100) :=
  C3_bulk_load_complete
    [⟨2, "Bob", "00000000-0000-0000-0000-000000000002", 4, none⟩,
     ⟨1, "Alice", "00000000-0000-0000-0000-000000000001", 3, none⟩]
    0 (by decide)

/-- Claim C4: running the bulk loader twice against an unchanged source
gives exactly the same target (row set, sequence and reported count) as
running it once; rows already present in the target before a run are
skipped on primary-key conflict and survive untouched — the loaded target
extends the prior row list — even when their content differs from the
source. -/
theorem C4_bulk_load_idempotent (src : List Row) (t : Target) :
    loadAll src (loadAll src t).1 = loadAll src t ∧
    (∀ r ∈ t.rows, r ∈ (loadAll src t).1.rows) ∧
    (∃ l, (loadAll src t).1.rows = t.rows ++ l) := by
  have hrows1 : (loadAll src t).1.rows =
      (sortedSource src).foldl insertSkip t.rows := loadAll_rows src t
  have hcov : ∀ r ∈ sortedSource src,
      ∃ x ∈ (loadAll src t).1.rows, x.id = r.id := by
    intro r hr
    rw [hrows1]
    exact idCovered_foldl_insertSkip _ _ r hr
  have hrows2 : (loadAll src (loadAll src t).1).1.rows = (loadAll src t).1.rows := by
    rw [loadAll_rows]
    exact foldl_insertSkip_covered_eq _ _ hcov
  have happ : ∃ l, (loadAll src t).1.rows = t.rows ++ l := by
    rw [hrows1]
    exact exists_foldl_insertSkip_append _ _
  refine ⟨?_, ?_, happ⟩
  · have hseq : (loadAll src (loadAll src t).1).1.seq = (loadAll src t).1.seq := by
      rw [loadAll_seq src (loadAll src t).1, hrows2]
      by_cases hm : 0 < maxId (loadAll src t).1.rows
      · rw [if_pos hm, loadAll_seq src t, if_pos hm]
      · rw [if_neg hm]
    have hcnt : (loadAll src (loadAll src t).1).2 = (loadAll src t).2 := by
      rw [loadAll_count, loadAll_count]
    exact Prod.ext (targetExt _ _ hrows2 hseq) hcnt
  · intro r hr
    rcases happ with ⟨l, hl⟩
    rw [hl]
    exact List.mem_append_left _ hr

/-- Claim C4, witness: re-loading a one-row source over a target that
already holds a divergent row 2 changes nothing the second time, and the
pre-existing row survives the load untouched. -/
theorem C4_bulk_load_idempotent_witness :
    loadAll [⟨1, "Alice", "00000000-0000-0000-0000-000000000001", 3, none⟩]
        (loadAll [⟨1, "Alice", "00000000-0000-0000-0000-000000000001", 3, none⟩]
          ⟨[⟨2, "Zoe", "00000000-0000-0000-0000-00000000000f", 9, none⟩], 0⟩).1 =
      loadAll [⟨1, "Alice", "00000000-0000-0000-0000-000000000001", 3, none⟩]
        ⟨[⟨2, "Zoe", "00000000-0000-0000-0000-00000000000f", 9, none⟩], 0⟩ ∧
    (⟨2, "Zoe", "00000000-0000-0000-0000-00000000000f", 9, none⟩ : Row) ∈
      (loadAll [⟨1, "Alice", "00000000-0000-0000-0000-000000000001", 3, none⟩]
        ⟨[⟨2, "Zoe", "00000000-0000-0000-0000-00000000000f", 9, none⟩], 0⟩).1.rows :=
  ⟨(C4_bulk_load_idempotent
      [⟨1, "Alice", "00000000-0000-0000-0000-000000000001", 3, none⟩]
      ⟨[⟨2, "Zoe", "00000000-0000-0000-0000-00000000000f", 9, none⟩], 0⟩).1,
   (C4_bulk_load_idempotent
      [⟨1, "Alice", "00000000-0000-0000-0000-000000000001", 3, none⟩]
      ⟨[⟨2, "Zoe", "00000000-0000-0000-0000-00000000000f", 9, none⟩], 0⟩).2.1
     ⟨2, "Zoe", "00000000-0000-0000-0000-00000000000f", 9, none⟩ (by decide)⟩

/-- Claim C8: when the loaded target holds at least one row with a positive
primary key (the domain of SERIAL keys), the bulk loader restarts the
target's id sequence at max(id) + 1, so every existing primary key lies
strictly below the sequence's next value and future target-side inserts
cannot collide. -/
theorem C8_sequence_reset (src : List Row) (t : Target)
    (h : 0 < maxId (loadAll src t).1.rows) :
    (loadAll src t).1.seq = maxId (loadAll src t).1.rows + 1 ∧
    ∀ r ∈ (loadAll src t).1.rows, r.id < (loadAll src t).1.seq := by
  have hs : (loadAll src t).1.seq = maxId (loadAll src t).1.rows + 1 := by
    rw [loadAll_seq, if_pos h]
  refine ⟨hs, ?_⟩
  intro r hr
  rw [hs]
  exact lt_of_le_of_lt (id_le_maxId _ r hr) (lt_add_one _)

/-- Claim C8, witness: loading a one-row source with id 4 into an empty
target restarts the sequence at 5. -/
theorem C8_sequence_reset_witness :
    (loadAll [⟨4, "Dana", "00000000-0000-0000-0000-000000000004", 7, none⟩]
        ⟨[], 0⟩).1.seq =
      maxId (loadAll [⟨4, "Dana", "00000000-0000-0000-0000-000000000004", 7, none⟩]
        ⟨[], 0⟩).1.rows + 1 ∧
    ∀ r ∈ (loadAll [⟨4, "Dana", "00000000-0000-0000-0000-000000000004", 7, none⟩]
        ⟨[], 0⟩).1.rows,
      r.id < (loadAll [⟨4, "Dana", "00000000-0000-0000-0000-000000000004", 7, none⟩]
        ⟨[], 0⟩).1.seq :=
  C8_sequence_reset
    [⟨4, "Dana", "00000000-0000-0000-0000-000000000004", 7, none⟩]
    ⟨[], 0⟩ (by decide)

/-- Claim C10: the count the bulk loader reports equals the number of rows
read and queued from the source, whatever the target already holds; a row
skipped by the on-conflict policy is still counted, so against a target
that already has the row the loader reports 1 while writing 0 rows and
leaving the target's divergent row exactly as it was. -/
theorem C10_count_reads_not_writes :
    (∀ (src : List Row) (t : Target), (loadAll src t).2 = src.length) ∧
    (loadAll [⟨1, "Alice", "00000000-0000-0000-0000-000000000001", 3, none⟩]
        ⟨[⟨1, "Zoe", "00000000-0000-0000-0000-00000000000f", 9, none⟩], 5⟩).2 = 1 ∧
    (loadAll [⟨1, "Alice", "00000000-0000-0000-0000-000000000001", 3, none⟩]
        ⟨[⟨1, "Zoe", "00000000-0000-0000-0000-00000000000f", 9, none⟩], 5⟩).1.rows =
      [⟨1, "Zoe", "00000000-0000-0000-0000-00000000000f", 9, none⟩] :=
  ⟨loadAll_count, by decide, by decide⟩

end CDC
